import Mathlib

/-!
# Workshop attendance system — verification of the live-attendance core

Shallow embedding of the workshop attendance tracking application:

* the check-in store (`attendance` table of `database_schema.sql`, with its
  `UNIQUE(attendee_id)` constraint and insert-or-fail semantics);
* the Check-in Registrar (backend endpoint `POST /scan`; modelled from the
  spec since the backend source is not in the repository snapshot);
* the Client Reconciler (the `es.onmessage` handler inside
  `connectLiveStream` of the React frontend), its search filter
  (`filteredLive`) and CSV export (`exportCSV`);
* the reconnect behaviour of `connectLiveStream` / `es.onerror`;
* the user-visible scanner notifications (`startScanner`).

JavaScript strings are modelled as Lean `String`s; object fields that the
frontend null-guards (`a.name || ""`) are modelled as `Option String`;
timestamps are `Nat`.
-/

namespace Workshop

/-! ## Attendee view rows (frontend `liveAttendees` entries)

A row of the live view, as served by `GET /attendees/live` and rendered by
the frontend.  `id` keys the row; every other field is nullable (the
frontend guards each with `|| ""` / truthiness checks). -/

structure Row where
  id : String
  name : Option String
  email : Option String
  mobile : Option String
  batch : Option String
  attendance_status : Option String
  entry_time : Option String
  qr_email_status : Option String
  qr_whatsapp_status : Option String
  entry_email_status : Option String
  entry_whatsapp_status : Option String
  deriving Repr, DecidableEq, Inhabited

/-- An incremental stream event (the decoded `msg` of `es.onmessage`) once it
has passed the `msg && msg.id` guard: a truthy `id` plus any subset of the
other fields of the row (`none` = key absent from the JSON object; the object
spread `{...updated[idx], ...msg}` only overwrites keys present in `msg`). -/
structure Event where
  eid : String
  name : Option String
  email : Option String
  mobile : Option String
  batch : Option String
  attendance_status : Option String
  entry_time : Option String
  qr_email_status : Option String
  qr_whatsapp_status : Option String
  entry_email_status : Option String
  entry_whatsapp_status : Option String
  deriving Repr, DecidableEq, Inhabited

/-- Spread merge of row and event: fields present in the event overwrite
those of the row, fields absent from the event keep the value of the row.
The event always carries `id` (it passed the truthiness guard), so `id` is
overwritten with `e.eid`. -/
def mergeRow (r : Row) (e : Event) : Row where
  id := e.eid
  name := (e.name.map some).getD r.name
  email := (e.email.map some).getD r.email
  mobile := (e.mobile.map some).getD r.mobile
  batch := (e.batch.map some).getD r.batch
  attendance_status := (e.attendance_status.map some).getD r.attendance_status
  entry_time := (e.entry_time.map some).getD r.entry_time
  qr_email_status := (e.qr_email_status.map some).getD r.qr_email_status
  qr_whatsapp_status := (e.qr_whatsapp_status.map some).getD r.qr_whatsapp_status
  entry_email_status := (e.entry_email_status.map some).getD r.entry_email_status
  entry_whatsapp_status := (e.entry_whatsapp_status.map some).getD r.entry_whatsapp_status

/-- The reconciler merge of `es.onmessage`:

```js
const idx = prev.findIndex((a) => a.id === msg.id);
if (idx === -1) return prev;
const updated = [...prev];
updated[idx] = { ...updated[idx], ...msg };
return updated;
```

i.e. replace the first row whose `id` equals the id of the event by the
spread-merge, leaving every other row in place; if no row matches, return
`prev` unchanged. -/
def applyEvent : List Row → Event → List Row
  | [], _ => []
  | a :: rest, e =>
    if a.id = e.eid then mergeRow a e :: rest
    else a :: applyEvent rest e

/-- The same merge phrased exactly as the JS (`findIndex` then a single
index assignment on a copy), used to justify `applyEvent`. -/
def applyEventIdx (prev : List Row) (e : Event) : List Row :=
  match prev.findIdx? (fun a => a.id == e.eid) with
  | none => prev
  | some idx =>
    match prev.get? idx with
    | none => prev
    | some r => prev.set idx (mergeRow r e)

/-! ## Raw stream messages (before the `connected` / truthy-id guards)

`es.onmessage` first runs `JSON.parse(evt.data)` inside `try`; a payload
that does not parse (keepalive comment) is swallowed by the `catch`.  A
decoded message is dropped if `msg?.type === "connected"`, or if it is not
a truthy object with a truthy `id` (in JS the empty string is falsy). -/

inductive StreamMsg where
  /-- payload `evt.data` is not valid JSON: `JSON.parse` throws, the catch
  ignores. -/
  | malformed
  /-- decodes to a falsy value (`null`): fails the `msg && msg.id` guard. -/
  | nullish
  /-- decodes to an object with optional `type` and `id` keys plus the
  payload fields (the `eid` component of `fields` is replaced by the actual
  `id` key when the guard passes). -/
  | obj (type? : Option String) (id? : Option String) (fields : Event)

/-- JS truthiness of an optional string field: present and non-empty. -/
def truthyStr : Option String → Bool
  | none => false
  | some s => !s.isEmpty

/-- The whole `es.onmessage` handler as a state transformer on the
`liveAttendees` list: `JSON.parse` failures and falsy decodes are ignored,
a `connected` control message returns early, a missing or falsy `id`
skips the merge, and otherwise the decoded payload is merged keyed by its
truthy `id`. -/
def handleMessage (prev : List Row) (m : StreamMsg) : List Row :=
  match m with
  | .malformed => prev
  | .nullish => prev
  | .obj type? id? fields =>
    if type? = some "connected" then prev
    else
      match id? with
      | none => prev
      | some i => if i.isEmpty then prev else applyEvent prev { fields with eid := i }

/-! ## Search filter (`filteredLive`)

```js
const filteredLive = liveAttendees.filter((a) => {
  if (!liveSearch.trim()) return true;
  const q = liveSearch.toLowerCase();
  return (a.name || "").toLowerCase().includes(q) ||
         (a.mobile || "").toLowerCase().includes(q);
});
```
-/

/-- Null-guard `x || ""` on a nullable string field. -/
def jsOrEmpty (o : Option String) : String := o.getD ""

/-- Does `hay` start with `needle` (character by character)? -/
def startsWithChars : List Char → List Char → Bool
  | [], _ => true
  | _ :: _, [] => false
  | a :: as, b :: bs => a == b && startsWithChars as bs

/-- Is `needle` a contiguous substring of `hay`?  Models JS
`hay.includes(needle)` (which is `true` for the empty needle). -/
def includesChars : List Char → List Char → Bool
  | needle, [] => needle.isEmpty
  | needle, c :: t => startsWithChars needle (c :: t) || includesChars needle t

/-- Models `s.includes(sub)`. -/
def strIncludes (s sub : String) : Bool := includesChars sub.data s.data

/-- Whitespace removal from both ends of the character list. -/
def trimChars (l : List Char) : List Char :=
  ((l.dropWhile Char.isWhitespace).reverse.dropWhile Char.isWhitespace).reverse

/-- Models `s.trim()`. -/
def jsTrim (s : String) : String := String.mk (trimChars s.data)

/-- Models `s.toLowerCase()` (character-wise lowering). -/
def jsToLower (s : String) : String := String.mk (s.data.map Char.toLower)

/-- The predicate passed to `liveAttendees.filter`. -/
def searchPred (liveSearch : String) (a : Row) : Bool :=
  if (jsTrim liveSearch).isEmpty then true
  else
    let q := jsToLower liveSearch
    strIncludes (jsToLower (jsOrEmpty a.name)) q ||
      strIncludes (jsToLower (jsOrEmpty a.mobile)) q

/-- The view `filteredLive` as a function of the search box contents and
the reconciled list. -/
def filteredLive (liveSearch : String) (liveAttendees : List Row) : List Row :=
  liveAttendees.filter (searchPred liveSearch)

/-! ## CSV export (`exportCSV`)

Serializes the *filtered* view: a header row, then one row per entry of
`filteredLive`; each cell is `"..."` with embedded `"` doubled; rows are
joined by `","` and `"\n"`.  `new Date(t).toLocaleString()` is
environment-dependent and is abstracted as a formatting parameter `fmt`. -/

/-- Models the regex replace of each double quote by two double quotes,
on the character list. -/
def escQ : List Char → List Char
  | [] => []
  | c :: t => if c == '"' then '"' :: '"' :: escQ t else c :: escQ t

/-- The characters of one emitted cell: `` `"${escaped}"` ``. -/
def csvCellChars (cs : List Char) : List Char :=
  '"' :: (escQ cs ++ ['"'])

/-- One emitted cell. -/
def csvCell (s : String) : String := String.mk (csvCellChars s.toList)

/-- The fixed header row of the export. -/
def csvHeader : List String :=
  ["Name", "Email", "Mobile", "Batch", "Status", "Entry Time",
   "QR Email", "QR WhatsApp", "Entry Email", "Entry WhatsApp"]

/-- Status cell: Present exactly when `attendance_status` is the string P,
Absent otherwise (strict equality in the source). -/
def statusCell (a : Row) : String :=
  if a.attendance_status = some "P" then "Present" else "Absent"

/-- Entry-time cell: the formatted timestamp when `entry_time` is truthy,
the empty string otherwise. -/
def entryTimeCell (fmt : String → String) (a : Row) : String :=
  if truthyStr a.entry_time then fmt (jsOrEmpty a.entry_time) else ""

/-- The data row emitted for one attendee. -/
def csvRowOf (fmt : String → String) (a : Row) : List String :=
  [jsOrEmpty a.name, jsOrEmpty a.email, jsOrEmpty a.mobile, jsOrEmpty a.batch,
   statusCell a, entryTimeCell fmt a,
   jsOrEmpty a.qr_email_status, jsOrEmpty a.qr_whatsapp_status,
   jsOrEmpty a.entry_email_status, jsOrEmpty a.entry_whatsapp_status]

/-- The `rows` array built by `exportCSV` from the given view. -/
def csvRows (fmt : String → String) (view : List Row) : List (List String) :=
  csvHeader :: view.map (csvRowOf fmt)

/-- Join every quoted cell of every row with commas, and the rows with
newlines. -/
def csvString (fmt : String → String) (view : List Row) : String :=
  String.intercalate "\n" ((csvRows fmt view).map (fun r => String.intercalate "," (r.map csvCell)))

/-- The export serializes `filteredLive`, not `liveAttendees`. -/
def exportCSV (fmt : String → String) (liveSearch : String) (liveAttendees : List Row) : String :=
  csvString fmt (filteredLive liveSearch liveAttendees)

/-- Checker: every `"` in the list is immediately followed by a second `"`
that pairs with it (i.e. quotes only occur in adjacent pairs). -/
def pairedQuotes : List Char → Bool
  | [] => true
  | c :: t =>
    if c == '"' then
      match t with
      | [] => false
      | c2 :: t2 => c2 == '"' && pairedQuotes t2
    else pairedQuotes t

/-! ## The check-in store (`attendance` table, `database_schema.sql`)

```sql
CREATE TABLE attendance (
    id UUID PRIMARY KEY DEFAULT uuid_generate_v4(),
    attendee_id UUID NOT NULL REFERENCES attendees(id) ON DELETE CASCADE,
    entry_time TIMESTAMPTZ NOT NULL,
    created_at TIMESTAMPTZ DEFAULT NOW(),
    UNIQUE(attendee_id) -- one attendance per attendee
);
```
-/

/-- A row of the `attendance` table. -/
structure AttRow where
  id : String
  attendee_id : String
  entry_time : Nat
  deriving Repr, DecidableEq, Inhabited

/-- The uniqueness invariant of the `UNIQUE(attendee_id)` constraint:
at most one attendance row per attendee identity. -/
def atMostOnePer (db : List AttRow) : Prop :=
  ∀ aid : String, db.countP (fun r => r.attendee_id == aid) ≤ 1

/-- An INSERT against the unique constraint on `attendee_id`:
insert-or-fail.  Returns the `created` flag and the new table contents. -/
def insertAttendance (db : List AttRow) (r : AttRow) : Bool × List AttRow :=
  if db.any (fun x => x.attendee_id == r.attendee_id) then (false, db)
  else (true, db ++ [r])

/-- The write operations the schema admits on `attendance`: the
insert-or-fail of the registrar, and row deletion (ON DELETE CASCADE from
`attendees`). -/
inductive StoreOp where
  | insert (r : AttRow)
  | deleteFor (aid : String)
  deriving Repr, DecidableEq

/-- Apply one store operation. -/
def applyOp (db : List AttRow) (op : StoreOp) : List AttRow :=
  match op with
  | .insert r => (insertAttendance db r).2
  | .deleteFor aid => db.filter (fun x => x.attendee_id != aid)

/-! ## The Check-in Registrar (`checkIn(token)` / `POST /scan`) -/

/-- A row of the `attendees` table (the fields the registrar touches). -/
structure AttendeeRec where
  id : String
  name : String
  batch : String
  qr_data : String
  deriving Repr, DecidableEq, Inhabited

/-- Authoritative server-side state: the attendee store and the check-in
store. -/
structure ServerState where
  attendees : List AttendeeRec
  attendance : List AttRow
  deriving Repr, DecidableEq, Inhabited

/-- Result type of `checkIn`: attendee snapshot on success, typed error
otherwise. -/
inductive CheckInResult where
  | success (name batch : String) (entry_time : Nat)
  | alreadyCheckedIn (entry_time : Nat)
  | notFound
  deriving Repr, DecidableEq, Inhabited

/-- Modelled from the spec: the backend Check-in Registrar (spec section 4.1,
collaborators `RegistrationStore.findByToken` / `RegistrationStore.recordCheckIn`
of section 6) is not part of the repository snapshot; only its storage schema
is.  Resolve the token against `attendees.qr_data`; `NotFound` if absent;
otherwise attempt the atomic insert-or-fail on the `attendance` table
(`UNIQUE(attendee_id)`), returning a fresh success on creation and
`AlreadyCheckedIn` with the `entry_time` of the *existing* row on conflict.
Each `checkIn` is one atomic storage step, so a set of concurrent calls is
modelled as an arbitrary serialization (list) of such steps. -/
def checkIn (st : ServerState) (tok : String) (now : Nat) : CheckInResult × ServerState :=
  match st.attendees.find? (fun a => a.qr_data == tok) with
  | none => (.notFound, st)
  | some a =>
    match insertAttendance st.attendance ⟨"", a.id, now⟩ with
    | (true, db) => (.success a.name a.batch now, { st with attendance := db })
    | (false, _) =>
      match st.attendance.find? (fun r => r.attendee_id == a.id) with
      | some ex => (.alreadyCheckedIn ex.entry_time, st)
      | none => (.alreadyCheckedIn now, st)

/-- Run a serialization of `checkIn` calls for one token, one timestamp per
call, threading the server state. -/
def runCalls : ServerState → String → List Nat → List CheckInResult × ServerState
  | st, _, [] => ([], st)
  | st, tok, t :: ts =>
    let p := checkIn st tok t
    let q := runCalls p.2 tok ts
    (p.1 :: q.1, q.2)

/-! ## Stream lifecycle effects (`connectLiveStream` / `es.onerror`) -/

/-- Externally visible actions of the live-tracking client. -/
inductive Effect where
  | closeStream
  | subscribe
  | fetchSnapshot
  | scheduleReconnect
  deriving Repr, DecidableEq

/-- Effects of `connectLiveStream`: close any existing `EventSource`, then
open a new one.  It never calls `loadLiveAttendees` (the snapshot fetch). -/
def connectLiveStreamEffects (hasExisting : Bool) : List Effect :=
  (if hasExisting then [.closeStream] else []) ++ [.subscribe]

/-- Effects of the `es.onerror` handler: close the stream, clear the
handle, schedule `connectLiveStream` after 5000 ms. -/
def onErrorEffects : List Effect := [.closeStream, .scheduleReconnect]

/-- The complete client-driven reconnection sequence: the `onerror` handler
followed by the scheduled `connectLiveStream` (the handle was cleared by
`setEventSource(null)`, so there is no existing stream to close). -/
def reconnectEffects : List Effect := onErrorEffects ++ connectLiveStreamEffects false

/-- Entering the live tab (`useEffect` for `view === "staff" &&
activeTab === "live"`): `loadLiveAttendees()` then `connectLiveStream()`. -/
def liveTabEnterEffects : List Effect := .fetchSnapshot :: connectLiveStreamEffects false

/-! ## Scanner notifications (`startScanner`) -/

/-- The failure kinds of a scan (spec section 7 taxonomy; the backend reports
`not_found` / `already_checked_in` and transient failures as non-OK HTTP
responses, all of which make `apiCall` throw). -/
inductive ScanFailure where
  | notFound
  | alreadyCheckedIn
  | transient
  deriving Repr, DecidableEq

/-- The notification shown by the catch block of `startScanner`: one fixed
message for *every* failed scan (`apiCall` throws on any non-OK response
and the handler does not inspect the error kind). -/
def scanFailureMessage : ScanFailure → String :=
  fun _ => "Invalid QR code or already scanned"

/-- The success notification: backtick-interpolated attendee name. -/
def scanSuccessMessage (name : String) : String :=
  "Attendance marked for " ++ name ++ "!"

/-! ## Sample data (used by the concrete witnesses below) -/

/-- A concrete not-yet-checked-in view row with the given identity. -/
def sampleRow (i : String) : Row :=
  { id := i, name := some "Alice", email := some "alice@example.com",
    mobile := some "9990001111", batch := some "DYP",
    attendance_status := some "A", entry_time := none,
    qr_email_status := some "sent", qr_whatsapp_status := none,
    entry_email_status := none, entry_whatsapp_status := none }

/-- A concrete check-in stream event for the given identity. -/
def sampleEvent (i : String) : Event :=
  { eid := i, name := none, email := none, mobile := none, batch := none,
    attendance_status := some "P", entry_time := some "2025-01-15T09:30:00Z",
    qr_email_status := none, qr_whatsapp_status := none,
    entry_email_status := none, entry_whatsapp_status := none }

/-- A concrete registered attendee holding token T-123. -/
def sampleAttendee : AttendeeRec :=
  { id := "A1", name := "Alice", batch := "DYP", qr_data := "T-123" }

/-- A concrete server state: one registered attendee, nobody checked in. -/
def sampleServerState : ServerState :=
  { attendees := [sampleAttendee], attendance := [] }

/-! # Theorems -/

/-! ## Reconciler merge: helper lemmas -/

theorem mergeRow_id (r : Row) (e : Event) : (mergeRow r e).id = e.eid := rfl

theorem override_getD_idem (o x : Option String) :
    (o.map some).getD ((o.map some).getD x) = (o.map some).getD x := by
  cases o <;> rfl

theorem mergeRow_mergeRow (r : Row) (e : Event) :
    mergeRow (mergeRow r e) e = mergeRow r e := by
  simp [mergeRow, override_getD_idem]

theorem applyEvent_of_absent (prev : List Row) (e : Event)
    (h : ∀ a ∈ prev, a.id ≠ e.eid) : applyEvent prev e = prev := by
  induction prev with
  | nil => rfl
  | cons a rest ih =>
    have ha : a.id ≠ e.eid := h a (by simp)
    simp only [applyEvent, if_neg ha, List.cons.injEq, true_and]
    exact ih fun x hx => h x (by simp [hx])

theorem applyEvent_map_id (prev : List Row) (e : Event) :
    (applyEvent prev e).map (fun a => a.id) = prev.map (fun a => a.id) := by
  induction prev with
  | nil => rfl
  | cons a rest ih =>
    by_cases ha : a.id = e.eid
    · simp [applyEvent, ha, mergeRow_id]
    · simp [applyEvent, ha, ih]

theorem applyEvent_idem (prev : List Row) (e : Event) :
    applyEvent (applyEvent prev e) e = applyEvent prev e := by
  induction prev with
  | nil => rfl
  | cons a rest ih =>
    by_cases ha : a.id = e.eid
    · simp [applyEvent, ha, mergeRow_id, mergeRow_mergeRow]
    · simp [applyEvent, ha, ih]

theorem applyEvent_length (prev : List Row) (e : Event) :
    (applyEvent prev e).length = prev.length := by
  induction prev with
  | nil => rfl
  | cons a rest ih => by_cases ha : a.id = e.eid <;> simp [applyEvent, ha, ih]

theorem applyEvent_getD (prev : List Row) (e : Event) (i : Nat) (d : Row) :
    (applyEvent prev e).getD i d = prev.getD i d ∨
      ((prev.getD i d).id = e.eid ∧
        (applyEvent prev e).getD i d = mergeRow (prev.getD i d) e) := by
  induction prev generalizing i with
  | nil => exact Or.inl rfl
  | cons a rest ih =>
    by_cases ha : a.id = e.eid
    · cases i with
      | zero => refine Or.inr ⟨?_, ?_⟩ <;> simp [applyEvent, ha]
      | succ n => left; simp [applyEvent, ha]
    · cases i with
      | zero => left; simp [applyEvent, ha]
      | succ n => simpa [applyEvent, ha] using ih n

theorem applyEvent_getD_of_ne (prev : List Row) (e : Event) (i : Nat) (d : Row)
    (h : (prev.getD i d).id ≠ e.eid) :
    (applyEvent prev e).getD i d = prev.getD i d := by
  rcases applyEvent_getD prev e i d with h1 | ⟨h2, _⟩
  · exact h1
  · exact absurd h2 h

theorem handleMessage_map_id (prev : List Row) (m : StreamMsg) :
    (handleMessage prev m).map (fun a => a.id) = prev.map (fun a => a.id) := by
  cases m with
  | malformed => rfl
  | nullish => rfl
  | obj t i f =>
    by_cases ht : t = some "connected"
    · simp [handleMessage, ht]
    · cases i with
      | none => simp [handleMessage, ht]
      | some s =>
        by_cases hs : s.isEmpty <;> simp [handleMessage, ht, hs, applyEvent_map_id]

theorem handleMessage_idem (prev : List Row) (m : StreamMsg) :
    handleMessage (handleMessage prev m) m = handleMessage prev m := by
  cases m with
  | malformed => rfl
  | nullish => rfl
  | obj t i f =>
    by_cases ht : t = some "connected"
    · simp [handleMessage, ht]
    · cases i with
      | none => simp [handleMessage, ht]
      | some s =>
        by_cases hs : s.isEmpty <;> simp [handleMessage, ht, hs, applyEvent_idem]

/-! ## Claim theorems: the Client Reconciler -/

/-- C3: an incoming stream event whose attendee identity is absent from the
current view leaves the view exactly unchanged, and no stream message ever
introduces a new identity into the view (the identity column is invariant
under the whole `onmessage` handler). -/
theorem reconciler_ignores_absent_identity (prev : List Row) (e : Event) (m : StreamMsg) :
    ((∀ a ∈ prev, a.id ≠ e.eid) → applyEvent prev e = prev) ∧
      (handleMessage prev m).map (fun a => a.id) = prev.map (fun a => a.id) :=
  ⟨applyEvent_of_absent prev e, handleMessage_map_id prev m⟩

/-- Witness for C3 at a one-row view and an event for a different identity. -/
theorem reconciler_ignores_absent_identity_witness :
    (∀ a ∈ [sampleRow "A1"], a.id ≠ (sampleEvent "ZZ").eid) ∧
      applyEvent [sampleRow "A1"] (sampleEvent "ZZ") = [sampleRow "A1"] :=
  ⟨by decide,
    (reconciler_ignores_absent_identity [sampleRow "A1"] (sampleEvent "ZZ") .malformed).1
      (by decide)⟩

/-- C4: the reconciler merge is idempotent — applying the same stream
message (or the same decoded event) twice yields a state identical to
applying it once. -/
theorem reconciler_merge_idempotent (prev : List Row) (m : StreamMsg) (e : Event) :
    handleMessage (handleMessage prev m) m = handleMessage prev m ∧
      applyEvent (applyEvent prev e) e = applyEvent prev e :=
  ⟨handleMessage_idem prev m, applyEvent_idem prev e⟩

/-- C5: merging an event changes at most the row whose identity equals the
identity of the event — the length is unchanged, every position holding a
row with a different identity is untouched, the touched position holds the
spread-merge of the old row, and each field absent from the event keeps its
previous value in the merged row. -/
theorem reconciler_merge_frame (prev : List Row) (e : Event) (d r : Row) (i : Nat) :
    (applyEvent prev e).length = prev.length ∧
    ((prev.getD i d).id ≠ e.eid → (applyEvent prev e).getD i d = prev.getD i d) ∧
    ((applyEvent prev e).getD i d = prev.getD i d ∨
      ((prev.getD i d).id = e.eid ∧
        (applyEvent prev e).getD i d = mergeRow (prev.getD i d) e)) ∧
    (e.name = none → (mergeRow r e).name = r.name) ∧
    (e.email = none → (mergeRow r e).email = r.email) ∧
    (e.mobile = none → (mergeRow r e).mobile = r.mobile) ∧
    (e.batch = none → (mergeRow r e).batch = r.batch) ∧
    (e.attendance_status = none → (mergeRow r e).attendance_status = r.attendance_status) ∧
    (e.entry_time = none → (mergeRow r e).entry_time = r.entry_time) ∧
    (e.qr_email_status = none → (mergeRow r e).qr_email_status = r.qr_email_status) ∧
    (e.qr_whatsapp_status = none → (mergeRow r e).qr_whatsapp_status = r.qr_whatsapp_status) ∧
    (e.entry_email_status = none → (mergeRow r e).entry_email_status = r.entry_email_status) ∧
    (e.entry_whatsapp_status = none →
      (mergeRow r e).entry_whatsapp_status = r.entry_whatsapp_status) := by
  refine ⟨applyEvent_length prev e, applyEvent_getD_of_ne prev e i d,
    applyEvent_getD prev e i d, ?_, ?_, ?_, ?_, ?_, ?_, ?_, ?_, ?_, ?_⟩ <;>
    (intro h; simp [mergeRow, h])

/-- Witness for C5: in a two-row view receiving an event for the second
identity, the first row is untouched. -/
theorem reconciler_merge_frame_witness :
    (([sampleRow "A1", sampleRow "B2"].getD 0 default).id ≠ (sampleEvent "B2").eid) ∧
      (applyEvent [sampleRow "A1", sampleRow "B2"] (sampleEvent "B2")).getD 0 default =
        [sampleRow "A1", sampleRow "B2"].getD 0 default :=
  ⟨by decide,
    (reconciler_merge_frame [sampleRow "A1", sampleRow "B2"] (sampleEvent "B2")
      default default 0).2.1 (by decide)⟩

/-- C8: stream messages that are not attendee updates are no-ops — an
undecodable payload (heartbeat/keepalive), a falsy decode, a `connected`
control message, and a decoded object without a truthy `id` all leave the
view exactly unchanged (and the total handler models the catch: no error
escapes). -/
theorem stream_noise_is_noop (prev : List Row) (t i : Option String) (f : Event) :
    handleMessage prev .malformed = prev ∧
    handleMessage prev .nullish = prev ∧
    handleMessage prev (.obj (some "connected") i f) = prev ∧
    handleMessage prev (.obj t none f) = prev ∧
    handleMessage prev (.obj t (some "") f) = prev := by
  have hempty : ("" : String).isEmpty = true := rfl
  refine ⟨rfl, rfl, by simp [handleMessage], ?_, ?_⟩
  · by_cases ht : t = some "connected" <;> simp [handleMessage, ht]
  · by_cases ht : t = some "connected" <;> simp [handleMessage, ht, hempty]

/-- The recursive `applyEvent` computes exactly the `findIndex`-then-assign
formulation taken verbatim from the source. -/
theorem applyEventIdx_eq_applyEvent (prev : List Row) (e : Event) :
    applyEventIdx prev e = applyEvent prev e := by
  induction prev with
  | nil => rfl
  | cons a rest ih =>
    by_cases ha : a.id = e.eid
    · have hb : (a.id == e.eid) = true := by simp [ha]
      simp [applyEventIdx, applyEvent, List.findIdx?_cons, hb, ha]
    · have hb : (a.id == e.eid) = false := by simp [ha]
      have hcons : applyEvent (a :: rest) e = a :: applyEvent rest e := by
        simp [applyEvent, ha]
      rw [hcons, ← ih]
      unfold applyEventIdx
      rw [List.findIdx?_cons]
      simp only [hb, if_false, List.findIdx?_succ, Bool.false_eq_true]
      cases hidx : rest.findIdx? (fun x => x.id == e.eid) with
      | none => simp [hidx]
      | some n =>
        cases hg : rest[n]? with
        | none => simp [hidx, hg]
        | some r => simp [hidx, hg, List.set_cons_succ]

/-! ## Claim theorems: search filter and CSV export -/

theorem trim_isEmpty_true {q : String} (h : jsTrim q = "") : (jsTrim q).isEmpty = true := by
  rw [h]; rfl

theorem trim_isEmpty_false {q : String} (h : jsTrim q ≠ "") : (jsTrim q).isEmpty = false := by
  cases he : (jsTrim q).isEmpty
  · rfl
  · exact absurd ((String.isEmpty_iff _).mp he) h

/-- C9: the search filter is a pure selection over the reconciled list — the
result is a sublist (original order, nothing mutated), a blank query keeps
every row, and a non-blank query keeps exactly the rows whose null-guarded
name or mobile contains the lowercased query as a substring. -/
theorem search_filter_pure_view (q : String) (l : List Row) :
    (filteredLive q l).Sublist l ∧
    (jsTrim q = "" → filteredLive q l = l) ∧
    (jsTrim q ≠ "" → ∀ a, a ∈ filteredLive q l ↔ a ∈ l ∧
      (strIncludes (jsToLower (jsOrEmpty a.name)) (jsToLower q)
        || strIncludes (jsToLower (jsOrEmpty a.mobile)) (jsToLower q)) = true) := by
  refine ⟨List.filter_sublist l, ?_, ?_⟩
  · intro h
    have he := trim_isEmpty_true h
    simp [filteredLive, searchPred, he]
  · intro h a
    have he := trim_isEmpty_false h
    simp [filteredLive, searchPred, he, List.mem_filter]

/-- Witness for C9 at a blank query over a one-row list. -/
theorem search_filter_pure_view_witness :
    jsTrim "" = "" ∧ filteredLive "" [sampleRow "A1"] = [sampleRow "A1"] :=
  ⟨by decide, (search_filter_pure_view "" [sampleRow "A1"]).2.1 (by decide)⟩

theorem pairedQuotes_cons_ne (c : Char) (l : List Char) (h : (c == '"') = false) :
    pairedQuotes (c :: l) = pairedQuotes l := by
  rw [pairedQuotes.eq_def]
  simp [h]

theorem pairedQuotes_escQ (cs : List Char) : pairedQuotes (escQ cs) = true := by
  induction cs with
  | nil => rfl
  | cons c t ih =>
    by_cases hc : c = '"'
    · have hpair : pairedQuotes ('"' :: '"' :: escQ t) = pairedQuotes (escQ t) := rfl
      simp [escQ, hc, hpair, ih]
    · have hb : (c == '"') = false := by simp [hc]
      simp [escQ, hb, pairedQuotes_cons_ne, ih]

/-- C10: the CSV export serializes exactly the filtered view — one header
row plus one data row per filtered attendee in view order, the Status cell
is Present exactly when `attendance_status` is P and Absent otherwise, and
every cell is wrapped in double quotes with embedded double quotes
doubled (quotes in the escaped body only occur in adjacent pairs). -/
theorem export_serializes_filtered_view (fmt : String → String) (q : String) (l : List Row)
    (a : Row) (s : String) :
    exportCSV fmt q l = csvString fmt (filteredLive q l) ∧
    csvRows fmt (filteredLive q l) = csvHeader :: (filteredLive q l).map (csvRowOf fmt) ∧
    (csvRows fmt (filteredLive q l)).length = (filteredLive q l).length + 1 ∧
    (a.attendance_status = some "P" → (csvRowOf fmt a).getD 4 "" = "Present") ∧
    (a.attendance_status ≠ some "P" → (csvRowOf fmt a).getD 4 "" = "Absent") ∧
    (csvCell s).data = '"' :: (escQ s.data ++ ['"']) ∧
    pairedQuotes (escQ s.data) = true := by
  refine ⟨rfl, rfl, by simp [csvRows], ?_, ?_, rfl, pairedQuotes_escQ s.data⟩
  · intro h
    have hst : (csvRowOf fmt a).getD 4 "" = statusCell a := rfl
    rw [hst]; simp [statusCell, h]
  · intro h
    have hst : (csvRowOf fmt a).getD 4 "" = statusCell a := rfl
    rw [hst]; simp [statusCell, h]

/-- Witness for C10: a not-checked-in row is exported as Absent. -/
theorem export_serializes_filtered_view_witness :
    (sampleRow "A1").attendance_status ≠ some "P" ∧
      (csvRowOf id (sampleRow "A1")).getD 4 "" = "Absent" :=
  ⟨by decide,
    (export_serializes_filtered_view id "" [] (sampleRow "A1") "x").2.2.2.2.1 (by decide)⟩

/-! ## Claim theorems: the check-in store and the Registrar -/

theorem atMostOnePer_single (r : AttRow) : atMostOnePer [r] := fun _ =>
  (List.countP_le_length _).trans (by simp)

/-- C1: every operation the schema admits on the `attendance` table — the
insert-or-fail of the unique constraint on `attendee_id`, and cascade
deletion — preserves the invariant that at most one attendance row exists
per attendee identity. -/
theorem checkin_store_unique_invariant (db : List AttRow) (op : StoreOp)
    (h : atMostOnePer db) : atMostOnePer (applyOp db op) := by
  cases op with
  | deleteFor aid =>
    intro x
    exact ((List.filter_sublist db).countP_le _).trans (h x)
  | insert r =>
    intro aid
    unfold applyOp insertAttendance
    by_cases hany : db.any (fun x => x.attendee_id == r.attendee_id) = true
    · simpa [hany] using h aid
    · have hany2 : db.any (fun x => x.attendee_id == r.attendee_id) = false := by
        simpa using hany
      have hall := List.any_eq_false.mp hany2
      simp only [hany2, Bool.false_eq_true, if_false]
      rw [List.countP_append]
      by_cases haid : r.attendee_id = aid
      · have hz : db.countP (fun x => x.attendee_id == aid) = 0 := by
          rw [List.countP_eq_zero]
          intro x hx
          rw [← haid]
          exact hall x hx
        have hone : List.countP (fun x => x.attendee_id == aid) [r] = 1 := by
          simp [List.countP_cons, haid]
        rw [hz, hone]
      · have hzr : List.countP (fun x => x.attendee_id == aid) [r] = 0 := by
          simp [List.countP_cons, haid]
        rw [hzr]
        simpa using h aid

/-- Witness for C1: inserting a conflicting row into a one-row table
preserves the invariant. -/
theorem checkin_store_unique_invariant_witness :
    atMostOnePer [({ id := "r1", attendee_id := "A1", entry_time := 5 } : AttRow)] ∧
      atMostOnePer (applyOp [({ id := "r1", attendee_id := "A1", entry_time := 5 } : AttRow)]
        (.insert { id := "r2", attendee_id := "A1", entry_time := 6 })) :=
  ⟨atMostOnePer_single _, checkin_store_unique_invariant _ _ (atMostOnePer_single _)⟩

theorem checkIn_already (st : ServerState) (tok : String) (a : AttendeeRec) (ex : AttRow)
    (t : Nat)
    (hfind : st.attendees.find? (fun x => x.qr_data == tok) = some a)
    (hex : st.attendance.find? (fun r => r.attendee_id == a.id) = some ex) :
    checkIn st tok t = (.alreadyCheckedIn ex.entry_time, st) := by
  have hmem : ex ∈ st.attendance := List.mem_of_find?_eq_some hex
  have hp := List.find?_some hex
  have hany : st.attendance.any (fun x => x.attendee_id == a.id) = true :=
    List.any_eq_true.mpr ⟨ex, hmem, hp⟩
  unfold checkIn
  rw [hfind]
  simp [insertAttendance, hany, hex]

theorem runCalls_already (st : ServerState) (tok : String) (a : AttendeeRec) (ex : AttRow)
    (hfind : st.attendees.find? (fun x => x.qr_data == tok) = some a)
    (hex : st.attendance.find? (fun r => r.attendee_id == a.id) = some ex) (ts : List Nat) :
    runCalls st tok ts = (ts.map (fun _ => CheckInResult.alreadyCheckedIn ex.entry_time), st) := by
  induction ts with
  | nil => rfl
  | cons t ts ih => simp [runCalls, checkIn_already st tok a ex t hfind hex, ih]

/-- C2: for any serialization of a set of concurrent `checkIn` calls with
the same token, against a state where the token resolves to an attendee
with no attendance row, exactly the first serialized call succeeds and
every other call returns `AlreadyCheckedIn` carrying the entry time of the
successful call. -/
theorem concurrent_checkin_single_success (st : ServerState) (tok : String) (a : AttendeeRec)
    (t : Nat) (ts : List Nat)
    (hfind : st.attendees.find? (fun x => x.qr_data == tok) = some a)
    (hnone : st.attendance.find? (fun r => r.attendee_id == a.id) = none) :
    (runCalls st tok (t :: ts)).1 =
      CheckInResult.success a.name a.batch t ::
        ts.map (fun _ => CheckInResult.alreadyCheckedIn t) ∧
    (runCalls st tok (t :: ts)).1.countP
        (fun r : CheckInResult =>
          match r with | .success _ _ _ => true | _ => false) = 1 := by
  have hall := List.find?_eq_none.mp hnone
  have hany : st.attendance.any (fun x => x.attendee_id == a.id) = false :=
    List.any_eq_false.mpr hall
  have hstep : checkIn st tok t =
      (.success a.name a.batch t,
        { st with attendance := st.attendance ++ [{ id := "", attendee_id := a.id, entry_time := t }] }) := by
    unfold checkIn
    rw [hfind]
    simp [insertAttendance, hany]
  have hfind2 : ({ st with attendance := st.attendance ++
        [{ id := "", attendee_id := a.id, entry_time := t }] } : ServerState).attendees.find?
      (fun x => x.qr_data == tok) = some a := hfind
  have hex2 : ({ st with attendance := st.attendance ++
        [{ id := "", attendee_id := a.id, entry_time := t }] } : ServerState).attendance.find?
      (fun r => r.attendee_id == a.id) = some { id := "", attendee_id := a.id, entry_time := t } := by
    show (st.attendance ++ [({ id := "", attendee_id := a.id, entry_time := t } : AttRow)]).find?
        (fun r : AttRow => r.attendee_id == a.id) =
      some { id := "", attendee_id := a.id, entry_time := t }
    rw [List.find?_append, hnone]
    simp
  have hrest := runCalls_already _ tok a _ hfind2 hex2 ts
  constructor
  · simp [runCalls, hstep, hrest]
  · simp [runCalls, hstep, hrest, List.countP_cons, List.countP_map, Function.comp]

/-- Witness for C2: one attendee holding token T-123, three serialized
scans — one success at time 5, two AlreadyCheckedIn at time 5. -/
theorem concurrent_checkin_single_success_witness :
    sampleServerState.attendees.find? (fun x => x.qr_data == "T-123") = some sampleAttendee ∧
    sampleServerState.attendance.find? (fun r => r.attendee_id == sampleAttendee.id) = none ∧
    (runCalls sampleServerState "T-123" [5, 7, 9]).1 =
      CheckInResult.success sampleAttendee.name sampleAttendee.batch 5 ::
        [7, 9].map (fun _ => CheckInResult.alreadyCheckedIn 5) :=
  ⟨by decide, rfl,
    (concurrent_checkin_single_success sampleServerState "T-123" sampleAttendee 5 [7, 9]
      (by decide) rfl).1⟩

/-! ## Claim theorems: stream reconnection and scanner messages -/

/-- C6 counterexample: the reconnection sequence triggered by a stream
failure contains no snapshot fetch at all, so it cannot re-pull a snapshot
before re-subscribing. -/
theorem reconnect_never_fetches_snapshot :
    Effect.fetchSnapshot ∉ reconnectEffects := by decide

/-- C6 as amended: on a stream failure the client closes the stream and
schedules a plain re-subscribe after 5 seconds, with no fresh snapshot
pull; the snapshot is fetched only on entering the live tab. -/
theorem reconnect_resubscribes_without_snapshot :
    reconnectEffects = [Effect.closeStream, Effect.scheduleReconnect, Effect.subscribe] ∧
    Effect.fetchSnapshot ∉ reconnectEffects ∧
    liveTabEnterEffects = [Effect.fetchSnapshot, Effect.subscribe] :=
  ⟨rfl, by decide, rfl⟩

/-- C7 counterexample: the message shown for a scan that hits an
already-checked-in attendee equals the message shown for an unknown code. -/
theorem scan_failure_messages_all_equal :
    scanFailureMessage ScanFailure.alreadyCheckedIn = scanFailureMessage ScanFailure.notFound :=
  rfl

/-- C7 as amended: every failed scan shows the same single notification,
for all three failure kinds alike, and that notification differs from
every success notification. -/
theorem scan_failure_message_uniform (k k' : ScanFailure) (name : String) :
    scanFailureMessage k = "Invalid QR code or already scanned" ∧
    scanFailureMessage k = scanFailureMessage k' ∧
    scanFailureMessage k ≠ scanSuccessMessage name := by
  refine ⟨rfl, rfl, ?_⟩
  intro hcontra
  have h2 := congrArg (fun s => s.data.head?) hcontra
  have hI : (scanFailureMessage k).data.head? = some 'I' := rfl
  have hA : (scanSuccessMessage name).data.head? = some 'A' := by
    have hlit : ("Attendance marked for ").data.head? = some 'A' := rfl
    show (("Attendance marked for " ++ name) ++ "!").data.head? = some 'A'
    rw [String.data_append, String.data_append, List.head?_append, List.head?_append, hlit]
    rfl
  have h3 : some 'I' = some 'A' := by rw [← hI, ← hA]; exact h2
  exact absurd h3 (by decide)

end Workshop
